import Mathlib

/-!
Verification of the ArduinoSnakeGame core (snake_game.ino) against its
natural-language specification.  The C++ source is shallowly embedded:
machine integers become Nat with explicit truncation where the width
matters (uint8_t stores truncate mod 256, unsigned long subtraction is
32-bit wraparound), pointers become Option values, and the hardware
sample of each tick is passed in as an input.
-/

/-- 32-bit unsigned subtraction, as performed on unsigned long values
(AVR unsigned long is 32 bits).  For b <= a < 2^32 this is a - b. -/
def sub32 (a b : Nat) : Nat := (a + 2 ^ 32 - b) % 2 ^ 32

/-- ULONG_MAX on the target platform, used by the keypad as the
idle-consumed sentinel and by applications as a first-run sentinel. -/
def ULONG_MAX : Nat := 2 ^ 32 - 1

/-- enum class Direction : uint8_t, Left=0, Right=4, Up=1, Down=3, Center=2. -/
inductive Direction where
  | Left
  | Right
  | Up
  | Down
  | Center
deriving DecidableEq

/-- The uint8_t value of a Direction, exactly the enumerator values of
the source enum. -/
def Direction.val : Direction → Nat
  | .Left => 0
  | .Right => 4
  | .Up => 1
  | .Down => 3
  | .Center => 2

/-- Conversion from a uint8_t value back to a Direction (the source
casts raw indices with Button(idx)); values outside the enum range
never arise from 5-bit button masks, Center is a junk default. -/
def Direction.fromVal : Nat → Direction
  | 0 => .Left
  | 1 => .Up
  | 2 => .Center
  | 3 => .Down
  | 4 => .Right
  | _ => .Center

/-- constexpr Direction opposite(Direction):  Direction(uint8_t(4) - uint8_t(direction)). -/
def opposite (direction : Direction) : Direction := Direction.fromVal (4 - direction.val)

/-- constexpr uint8_t mask(Direction):  uint8_t(1) << uint8_t(direction). -/
def mask (direction : Direction) : Nat := 1 <<< direction.val

/-- Keypad::ButtonSet::notIn: diff = m_flags XOR old.m_flags; result = diff AND m_flags.
The ButtonSet m_flags byte is carried as a Nat. -/
def ButtonSet.notIn (flags old : Nat) : Nat := (flags ^^^ old) &&& flags

/-- Keypad::ButtonSet::difference: m_flags XOR old.m_flags. -/
def ButtonSet.difference (flags old : Nat) : Nat := flags ^^^ old

/-- Point16x16: two 4-bit coordinates packed in one uint8_t m_data,
y in the high nibble, x in the low nibble. -/
structure Point16x16 where
  m_data : Nat
deriving DecidableEq

instance : Inhabited Point16x16 := ⟨⟨0⟩⟩

/-- Point16x16::set: m_data = (y << 4) | x, stored into a uint8_t. -/
def Point16x16.set (x y : Nat) : Point16x16 := ⟨((y <<< 4) ||| x) % 256⟩

/-- Point16x16::setX: m_data &= B11110000; m_data |= x. -/
def Point16x16.setX (p : Point16x16) (x : Nat) : Point16x16 :=
  ⟨((p.m_data &&& 240) ||| x) % 256⟩

/-- Point16x16::setY: m_data &= B00001111; m_data |= (y << 4). -/
def Point16x16.setY (p : Point16x16) (y : Nat) : Point16x16 :=
  ⟨((p.m_data &&& 15) ||| (y <<< 4)) % 256⟩

/-- Point16x16::x: m_data & B00001111. -/
def Point16x16.x (p : Point16x16) : Nat := p.m_data &&& 15

/-- Point16x16::y: m_data >> 4. -/
def Point16x16.y (p : Point16x16) : Nat := p.m_data >>> 4

/-- template <typename T, uint16_t Cap> class CircularQueue.
m_data is the backing array (a total function; cells outside the live
range model the uninitialized array slots), m_front and m_back are the
uint16_t indices, always kept below Cap by the operations. -/
structure CircularQueue (T : Type) (Cap : Nat) where
  m_data : Nat → T
  m_front : Nat
  m_back : Nat

/-- The constructor initializes m_front = m_back = 0; the array
contents are uninitialized in the source and modeled as default. -/
def CircularQueue.empty {T : Type} [Inhabited T] {Cap : Nat} : CircularQueue T Cap :=
  { m_data := fun _ => default, m_front := 0, m_back := 0 }

/-- CircularQueue::clear. -/
def CircularQueue.clear {T : Type} {Cap : Nat} (q : CircularQueue T Cap) : CircularQueue T Cap :=
  { q with m_front := 0, m_back := 0 }

/-- CircularQueue::size: ((m_back + Cap) - m_front) % Cap, returned as
uint8_t (hence the final mod 256; for every capacity used in the
repository, 3 and 256, the value already fits in a byte). -/
def CircularQueue.size {T : Type} {Cap : Nat} (q : CircularQueue T Cap) : Nat :=
  (((q.m_back + Cap) - q.m_front) % Cap) % 256

/-- CircularQueue::push_back: m_data[m_back] = pt; ++m_back; m_back %= Cap. -/
def CircularQueue.push_back {T : Type} {Cap : Nat} (q : CircularQueue T Cap) (pt : T) :
    CircularQueue T Cap :=
  { q with
    m_data := fun i => if i = q.m_back then pt else q.m_data i
    m_back := (q.m_back + 1) % Cap }

/-- CircularQueue::pop_front: ++m_front; m_front %= Cap. -/
def CircularQueue.pop_front {T : Type} {Cap : Nat} (q : CircularQueue T Cap) :
    CircularQueue T Cap :=
  { q with m_front := (q.m_front + 1) % Cap }

/-- CircularQueue::operator[]: m_data[(idx + m_front) % Cap]. -/
def CircularQueue.get {T : Type} {Cap : Nat} (q : CircularQueue T Cap) (idx : Nat) : T :=
  q.m_data ((idx + q.m_front) % Cap)

/-- CircularQueue::front: m_data[m_front]. -/
def CircularQueue.front {T : Type} {Cap : Nat} (q : CircularQueue T Cap) : T :=
  q.m_data q.m_front

/-- CircularQueue::back: m_data[(m_back + Cap - 1) % Cap]. -/
def CircularQueue.back {T : Type} {Cap : Nat} (q : CircularQueue T Cap) : T :=
  q.m_data ((q.m_back + Cap - 1) % Cap)

/-- Keypad thresholds: enum { MaxIdleTime = 15000, MaxPressTime = 300 }. -/
def MaxIdleTime : Nat := 15000

/-- Keypad long-press threshold, see MaxIdleTime. -/
def MaxPressTime : Nat := 300

/-- The notifications a Keypad tick issues: onIdle to the idle listener
and the three notify calls on the key listener.  ButtonSets are carried
as their m_flags byte. -/
inductive Notification where
  | idle
  | keyPress (btn : Direction)
  | longKeyPress (btn : Direction)
  | keyRelease (btn : Direction)
deriving DecidableEq

/-- The mutable state of class Keypad.  m_listner and m_idleListner are
nullable pointers: the key listener is identified by the Nat id of the
application installed, the idle listener (always the Shell) by a Bool.
m_buttonPressTime is the 5-entry timestamp array, total as a function. -/
structure KeypadState where
  m_listner : Option Nat
  m_idleListner : Bool
  m_prevState : Nat
  m_idleStart : Nat
  m_buttonPressTime : Nat → Nat

/-- Keypad::updateIdle.  Returns the updated state and the notifications
issued (either nothing or a single onIdle). -/
def Keypad.updateIdle (s : KeypadState) (oldState newState curr : Nat) :
    KeypadState × List Notification :=
  if oldState ≠ newState then
    ({ s with m_idleStart := curr }, [])
  else if s.m_idleStart = ULONG_MAX then
    (s, [])
  else if sub32 curr s.m_idleStart > MaxIdleTime then
    ({ s with m_idleStart := ULONG_MAX },
     if s.m_idleListner then [.idle] else [])
  else
    (s, [])

/-- The justPressed.forEach body of Keypad::loopImpl: for each set bit
(tested in ordinal order over the 8 bits of the flags byte, as
ButtonSet::forEach does) record the press timestamp and notify the key
press.  The index list is always List.range 8. -/
def Keypad.pressFold (flags curr : Nat) :
    List Nat → KeypadState × List Notification → KeypadState × List Notification
  | [], acc => acc
  | idx :: rest, acc =>
    if flags &&& (1 <<< idx) ≠ 0 then
      Keypad.pressFold flags curr rest
        ({ acc.1 with
           m_buttonPressTime := fun j =>
             if j = (Direction.fromVal idx).val then curr else acc.1.m_buttonPressTime j },
         acc.2 ++ [.keyPress (Direction.fromVal idx)])
    else Keypad.pressFold flags curr rest acc

/-- The longTimePressed.forEach body of Keypad::loopImpl: notify a long
key press for each set bit whose recorded press timestamp is older than
MaxPressTime. -/
def Keypad.longFold (flags curr : Nat) (s : KeypadState) :
    List Nat → List Notification → List Notification
  | [], acc => acc
  | idx :: rest, acc =>
    if flags &&& (1 <<< idx) ≠ 0 then
      if sub32 curr (s.m_buttonPressTime (Direction.fromVal idx).val) > MaxPressTime then
        Keypad.longFold flags curr s rest (acc ++ [.longKeyPress (Direction.fromVal idx)])
      else Keypad.longFold flags curr s rest acc
    else Keypad.longFold flags curr s rest acc

/-- The justReleased.forEach body of Keypad::loopImpl. -/
def Keypad.releaseFold (flags : Nat) : List Nat → List Notification → List Notification
  | [], acc => acc
  | idx :: rest, acc =>
    if flags &&& (1 <<< idx) ≠ 0 then
      Keypad.releaseFold flags rest (acc ++ [.keyRelease (Direction.fromVal idx)])
    else Keypad.releaseFold flags rest acc

/-- Keypad::loopImpl.  Both millis() calls of one tick are modeled as
the same instant curr. -/
def Keypad.loopImpl (s : KeypadState) (oldState newState curr : Nat) :
    KeypadState × List Notification :=
  let idleStep := Keypad.updateIdle s oldState newState curr
  match idleStep.1.m_listner with
  | none => idleStep
  | some _ =>
    let justPressed := ButtonSet.notIn newState oldState
    let pressStep := Keypad.pressFold justPressed curr (List.range 8) (idleStep.1, [])
    let longTimePressed := ButtonSet.difference justPressed newState
    let longOut := Keypad.longFold longTimePressed curr pressStep.1 (List.range 8) []
    let justReleased := ButtonSet.notIn oldState newState
    let relOut := Keypad.releaseFold justReleased (List.range 8) []
    (pressStep.1, idleStep.2 ++ pressStep.2 ++ longOut ++ relOut)

/-- Keypad::onLoop: sample the buttons (the sample is an input here),
run loopImpl against the previous sample, store the new sample. -/
def Keypad.onLoop (s : KeypadState) (newState curr : Nat) :
    KeypadState × List Notification :=
  let step := Keypad.loopImpl s s.m_prevState newState curr
  ({ step.1 with m_prevState := newState }, step.2)

/-- Keypad::onWakeUp: reset the idle timestamp and the five press
timestamps to the current time and clear the previous sample. -/
def Keypad.onWakeUp (s : KeypadState) (currTime : Nat) : KeypadState :=
  { s with
    m_idleStart := currTime
    m_buttonPressTime := fun i => if i < 5 then currTime else s.m_buttonPressTime i
    m_prevState := 0 }

/-- Iterates Keypad::onLoop over a list of ticks, each a pair of sample
and current time, collecting all notifications issued. -/
def Keypad.run (s : KeypadState) (ticks : List (Nat × Nat)) :
    KeypadState × List Notification :=
  ticks.foldl
    (fun acc tk =>
      let step := Keypad.onLoop acc.1 tk.1 tk.2
      (step.1, acc.2 ++ step.2))
    (s, [])

/-- Iterates Keypad::updateIdle over ticks whose sampled ButtonSet does
not change (old = new = flags), counting the idle notifications. -/
def Keypad.idleRun (s : KeypadState) (flags : Nat) : List Nat → KeypadState × Nat
  | [] => (s, 0)
  | t :: ts =>
    let step := Keypad.updateIdle s flags flags t
    let rest := Keypad.idleRun step.1 flags ts
    (rest.1, step.2.length + rest.2)

/-- The Callable objects the Shell ever schedules: the two
application-lane events of Shell::scheduleApplication (static objects
whose bound application is set just before enqueueing; modeled by value
with the bound application id inside) and the three system-lane events
of the sleep/wake path. -/
inductive Callable where
  | notifyPrevApp (app : Nat)
  | startApp (app : Nat)
  | sleepNotifier
  | sleepEvent
  | notifyWakeUp
deriving DecidableEq

/-- class ReservedEventQueue: two CircularQueue of Callable pointers of
capacity 3; a cell holds none where the source array holds no valid
pointer. -/
structure ReservedEventQueue where
  m_sysEvents : CircularQueue (Option Callable) 3
  m_shellEvents : CircularQueue (Option Callable) 3

/-- The default-constructed ReservedEventQueue. -/
def ReservedEventQueue.empty : ReservedEventQueue :=
  { m_sysEvents := CircularQueue.empty, m_shellEvents := CircularQueue.empty }

/-- ReservedEventQueue::popNextEvent: the next system event if any
exist, else the next application (shell) event, else nullptr.  Returns
the popped pointer and the remaining queue state. -/
def ReservedEventQueue.popNextEvent (q : ReservedEventQueue) :
    Option Callable × ReservedEventQueue :=
  if q.m_sysEvents.size ≠ 0 then
    (q.m_sysEvents.front, { q with m_sysEvents := q.m_sysEvents.pop_front })
  else if q.m_shellEvents.size ≠ 0 then
    (q.m_shellEvents.front, { q with m_shellEvents := q.m_shellEvents.pop_front })
  else
    (none, q)

/-- ReservedEventQueue::scheduleSysEvent. -/
def ReservedEventQueue.scheduleSysEvent (q : ReservedEventQueue) (event : Option Callable) :
    ReservedEventQueue :=
  { q with m_sysEvents := q.m_sysEvents.push_back event }

/-- ReservedEventQueue::scheduleShellEvent. -/
def ReservedEventQueue.scheduleShellEvent (q : ReservedEventQueue) (event : Option Callable) :
    ReservedEventQueue :=
  { q with m_shellEvents := q.m_shellEvents.push_back event }

/-- Observable calls the Shell makes into the pluggable applications
and the keypad notifications it relays; applications are opaque
collaborators identified by id, so a call record is the faithful
residue of the virtual dispatch. -/
inductive LogEntry where
  | deactivated (app : Nat)
  | activated (app : Nat)
  | appLoop (app : Nat)
  | appPrepareSleep (app : Nat)
  | appWakeUp (app : Nat)
  | keypadNotified (n : Notification)
deriving DecidableEq

/-- The Shell singleton state: the keypad (which owns the key listener
pointer), the current application pointer, the inherited
ReservedEventQueue, and the log of outward calls.  The screen performs
no state transitions relevant to the claims and is omitted. -/
structure ShellState where
  m_keypad : KeypadState
  m_currentApplication : Option Nat
  queue : ReservedEventQueue
  log : List LogEntry

/-- Shell::onPrepareSleep: keypad prepare hook (a no-op), the current
application prepareSleep, then the screen prepare hook (omitted). -/
def Shell.onPrepareSleep (s : ShellState) : ShellState :=
  match s.m_currentApplication with
  | some a => { s with log := s.log ++ [.appPrepareSleep a] }
  | none => s

/-- Shell::onWakeUp at time t: screen wake hook (omitted), keypad wake
hook, then the current application wakeUp. -/
def Shell.onWakeUpAt (s : ShellState) (t : Nat) : ShellState :=
  let s2 := { s with m_keypad := Keypad.onWakeUp s.m_keypad t }
  match s2.m_currentApplication with
  | some a => { s2 with log := s2.log ++ [.appWakeUp a] }
  | none => s2

/-- Executes one Callable, mirroring each execute() body.
NotifyPrevAppCallable clears the current application and the keypad
listener and deactivates the previous application; StartAppCallable
installs and activates the next one.  SleepCallable halts until the
wake interrupt (the halt is a platform call with no state of its own)
and then schedules the wake notifier; NotifiWakeUpCallable busy-polls
the raw buttons until released (a platform loop, modeled as having
completed) and runs the Shell wake sequence at the current time t. -/
def Shell.execute (s : ShellState) (t : Nat) : Callable → ShellState
  | .notifyPrevApp a =>
    { s with
      m_currentApplication := none
      m_keypad := { s.m_keypad with m_listner := none }
      log := s.log ++ [.deactivated a] }
  | .startApp a =>
    { s with
      m_currentApplication := some a
      m_keypad := { s.m_keypad with m_listner := some a }
      log := s.log ++ [.activated a] }
  | .sleepNotifier => Shell.onPrepareSleep s
  | .sleepEvent =>
    { s with queue := s.queue.scheduleSysEvent (some .notifyWakeUp) }
  | .notifyWakeUp => Shell.onWakeUpAt s t

/-- Shell::onIdle: schedule the prepare-sleep notifier and the sleep
event on the system lane, in that order. -/
def Shell.onIdle (s : ShellState) : ShellState :=
  { s with
    queue := (s.queue.scheduleSysEvent (some .sleepNotifier)).scheduleSysEvent
      (some .sleepEvent) }

/-- Shell::onLoop: one orchestrator tick at time t with hardware button
sample.  If a deferred event is pending, execute only it (then the
screen flush, omitted); otherwise advance the keypad (whose onIdle
callback into the Shell is applied when the keypad notified idle, and
whose key notifications reach the installed listener) and the current
application loop.  Application::loop rate limiting is private state of
the opaque applications and is recorded as a plain loop call. -/
def Shell.onLoop (s : ShellState) (t sample : Nat) : ShellState :=
  match s.queue.popNextEvent with
  | (some e, q2) => Shell.execute { s with queue := q2 } t e
  | (none, _) =>
    let step := Keypad.onLoop s.m_keypad sample t
    let s2 := { s with m_keypad := step.1, log := s.log ++ step.2.map .keypadNotified }
    let s3 := if Notification.idle ∈ step.2 then Shell.onIdle s2 else s2
    match s3.m_currentApplication with
    | some a => { s3 with log := s3.log ++ [.appLoop a] }
    | none => s3

/-- Shell::scheduleApplication: if an application is current, enqueue
the deactivate-previous event bound to it; unconditionally enqueue the
activate event bound to the new application.  Both go to the
application (shell) lane. -/
def Shell.scheduleApplication (s : ShellState) (app : Nat) : ShellState :=
  let s1 :=
    match s.m_currentApplication with
    | some prev => { s with queue := s.queue.scheduleShellEvent (some (.notifyPrevApp prev)) }
    | none => s
  { s1 with queue := s1.queue.scheduleShellEvent (some (.startApp app)) }

/-- enum MoveRes of SnakeGameApplication. -/
inductive MoveRes where
  | Regular
  | AppleHit
  | SelfHit
deriving DecidableEq

/-- using SnakeType = CircularQueue of Point, 256. -/
abbrev SnakeType : Type := CircularQueue Point16x16 256

/-- The switch of SnakeGameApplication::moveSnake advancing the head
one cell with 16-wide wraparound; there is no Center case, so Center
leaves the point unmoved. -/
def movePoint (fill0 : Point16x16) : Direction → Point16x16
  | .Left => fill0.setX ((fill0.x + 16 - 1) % 16)
  | .Right => fill0.setX ((fill0.x + 1) % 16)
  | .Up => fill0.setY ((fill0.y + 16 - 1) % 16)
  | .Down => fill0.setY ((fill0.y + 1) % 16)
  | .Center => fill0

/-- Result record of SnakeGameApplication::moveSnake: the returned
MoveRes, the snake queue after the call (the source mutates the member
m_snake), and the fill / clear output parameters. -/
structure MoveOut where
  res : MoveRes
  snake : SnakeType
  fill : Point16x16
  clear : Point16x16

/-- SnakeGameApplication::moveSnake.  clear is the old tail (queue
front), fill is the head (queue back) advanced one cell with 16-wide
wraparound; if fill collides with any current segment the snake is
untouched and SelfHit is returned; otherwise fill is pushed, and if it
hit the apple the tail is kept (AppleHit), else popped (Regular).
The switch has no Center case, so Center leaves fill unmoved. -/
def moveSnake (m_snake : SnakeType) (m_direction : Direction) (m_apple : Point16x16) :
    MoveOut :=
  let clear := m_snake.front
  let fill := movePoint m_snake.back m_direction
  if (List.range m_snake.size).any (fun idx => fill = m_snake.get idx) then
    ⟨.SelfHit, m_snake, fill, clear⟩
  else
    let pushed := m_snake.push_back fill
    if fill = m_apple then
      ⟨.AppleHit, pushed, fill, clear⟩
    else
      ⟨.Regular, pushed.pop_front, fill, clear⟩

/-- Representation invariant of a CircularQueue holding the element
list l in FIFO order: both indices in range, fewer live elements than
the capacity, the back index one past the last element, and every live
cell holding its list element. -/
def repInv {T : Type} [Inhabited T] {Cap : Nat} (q : CircularQueue T Cap) (l : List T) : Prop :=
  q.m_front < Cap ∧ l.length < Cap ∧ q.m_back = (q.m_front + l.length) % Cap ∧
    ∀ i, i < l.length → q.get i = l.getD i default

/-- One ring-buffer operation of the C5 trace. -/
inductive QOp (T : Type) where
  | push (v : T)
  | pop
deriving DecidableEq

/-- Applies one QOp to a CircularQueue. -/
def applyOp {T : Type} {Cap : Nat} (q : CircularQueue T Cap) : QOp T → CircularQueue T Cap
  | .push v => q.push_back v
  | .pop => q.pop_front

/-- Applies a trace of QOps to a CircularQueue. -/
def applyOps {T : Type} {Cap : Nat} (q : CircularQueue T Cap) (ops : List (QOp T)) :
    CircularQueue T Cap :=
  ops.foldl applyOp q

/-- The list-of-elements model of the same trace: push appends at the
back, pop drops the front. -/
def applyModel {T : Type} (l : List T) (ops : List (QOp T)) : List T :=
  ops.foldl (fun acc op => match op with | .push v => acc ++ [v] | .pop => acc.tail) l

/-- Number of pushes in a trace. -/
def countPush {T : Type} : List (QOp T) → Nat
  | [] => 0
  | .push _ :: rest => countPush rest + 1
  | .pop :: rest => countPush rest

/-- Number of pops in a trace. -/
def countPop {T : Type} : List (QOp T) → Nat
  | [] => 0
  | .push _ :: rest => countPop rest
  | .pop :: rest => countPop rest + 1

/-- The caller-enforced capacity discipline on a trace starting with n
live elements: a push never raises the live count beyond Cap - 1, a pop
never runs on an empty buffer. -/
def validOps {T : Type} (Cap : Nat) : Nat → List (QOp T) → Bool
  | _, [] => true
  | n, .push _ :: rest => decide (n + 1 ≤ Cap - 1) && validOps Cap (n + 1) rest
  | n, .pop :: rest => decide (1 ≤ n) && validOps Cap (n - 1) rest

/-- A keypad state as configured at boot with a listener installed and
the Shell as idle listener, all timestamps zero and no button down. -/
def keypadBoot : KeypadState :=
  { m_listner := some 0
    m_idleListner := true
    m_prevState := 0
    m_idleStart := 0
    m_buttonPressTime := fun _ => 0 }

/-- A Shell state in which application a is current and installed as
the keypad listener, with empty event lanes and an empty log. -/
def shellWith (a : Option Nat) : ShellState :=
  { m_keypad := { keypadBoot with m_listner := a }
    m_currentApplication := a
    queue := ReservedEventQueue.empty
    log := [] }

/-- A 255-element snake (every cell holding the point with packed byte
0) built by 255 push_back calls on the default queue: the largest
number of live elements the capacity-256 ring discipline admits. -/
def fullSnake : SnakeType :=
  (List.range 255).foldl (fun q _ => q.push_back ⟨0⟩) CircularQueue.empty

/-- Claim C6: opposite is an involution on Left, Right, Up, Down under
the ordinal assignment Left=0, Up=1, Center=2, Down=3, Right=4, with
opposite(b) computed as 4 - ordinal(b); nothing is claimed for Center. -/
theorem opposite_involution :
    (opposite (opposite .Left) = .Left ∧ opposite (opposite .Right) = .Right ∧
     opposite (opposite .Up) = .Up ∧ opposite (opposite .Down) = .Down)
    ∧ (Direction.val .Left = 0 ∧ Direction.val .Up = 1 ∧ Direction.val .Center = 2 ∧
       Direction.val .Down = 3 ∧ Direction.val .Right = 4)
    ∧ (opposite .Left = Direction.fromVal (4 - Direction.val .Left) ∧
       opposite .Right = Direction.fromVal (4 - Direction.val .Right) ∧
       opposite .Up = Direction.fromVal (4 - Direction.val .Up) ∧
       opposite .Down = Direction.fromVal (4 - Direction.val .Down)) := by
  decide

/-- Claim C7: the button masks are 1, 2, 4, 8, 16 for Left, Up, Center,
Down, Right, and on all 5-bit flag bytes notIn is bitwise AND with the
complement (within 5 bits) and difference is bitwise XOR. -/
theorem mask_notIn_difference :
    (mask .Left = 1 ∧ mask .Up = 2 ∧ mask .Center = 4 ∧ mask .Down = 8 ∧ mask .Right = 16)
    ∧ ∀ n, n < 32 → ∀ o, o < 32 →
        ButtonSet.notIn n o = n &&& (31 ^^^ o) ∧ ButtonSet.difference n o = n ^^^ o := by
  decide

/-- Witness for C7 at new = 5, old = 3. -/
theorem mask_notIn_difference_witness :
    ButtonSet.notIn 5 3 = 5 &&& (31 ^^^ 3) ∧ ButtonSet.difference 5 3 = 5 ^^^ 3 :=
  mask_notIn_difference.2 5 (by decide) 3 (by decide)

set_option maxRecDepth 8000 in
/-- Claim C10: for coordinates below 16, packing then reading back is
the identity, and setX / setY each change only their own nibble. -/
theorem point16x16_roundtrip :
    (∀ x, x < 16 → ∀ y, y < 16 →
      (Point16x16.set x y).x = x ∧ (Point16x16.set x y).y = y)
    ∧ (∀ d, d < 256 → ∀ x2, x2 < 16 →
      (Point16x16.setX ⟨d⟩ x2).y = Point16x16.y ⟨d⟩ ∧ (Point16x16.setX ⟨d⟩ x2).x = x2)
    ∧ (∀ d, d < 256 → ∀ y2, y2 < 16 →
      (Point16x16.setY ⟨d⟩ y2).x = Point16x16.x ⟨d⟩ ∧ (Point16x16.setY ⟨d⟩ y2).y = y2) := by
  refine ⟨?_, ?_, ?_⟩ <;> decide

/-- Witness for C10 at x = 3, y = 12 and byte 171. -/
theorem point16x16_roundtrip_witness :
    ((Point16x16.set 3 12).x = 3 ∧ (Point16x16.set 3 12).y = 12)
    ∧ ((Point16x16.setX ⟨171⟩ 5).y = Point16x16.y ⟨171⟩ ∧ (Point16x16.setX ⟨171⟩ 5).x = 5)
    ∧ ((Point16x16.setY ⟨171⟩ 9).x = Point16x16.x ⟨171⟩ ∧ (Point16x16.setY ⟨171⟩ 9).y = 9) :=
  ⟨point16x16_roundtrip.1 3 (by decide) 12 (by decide),
   point16x16_roundtrip.2.1 171 (by decide) 5 (by decide),
   point16x16_roundtrip.2.2 171 (by decide) 9 (by decide)⟩

theorem sub32_eq_sub (a b : Nat) (hba : b ≤ a) (ha : a < 2 ^ 32) :
    sub32 a b = a - b := by
  unfold sub32
  omega

/-- Claim C1 (defect witness): with the Left button pressed at time 0
and still held at the ticks at times 400 and 800, the keypad notifies
the long key press at both of the later ticks: the reference formula
justPressed.difference(newState) selects the buttons held across
consecutive samples, so the notification refires every tick past the
threshold instead of once per unbroken hold. -/
theorem keypad_longpress_refires :
    (Keypad.run keypadBoot [(1, 0), (1, 400), (1, 800)]).2 =
      [.keyPress .Left, .longKeyPress .Left, .longKeyPress .Left] ∧
    ((Keypad.run keypadBoot [(1, 0), (1, 400), (1, 800)]).2.count
      (.longKeyPress .Left) = 2) := by
  constructor <;> decide

theorem idleRun_consumed (flags : Nat) :
    ∀ (ts : List Nat) (s : KeypadState), s.m_idleStart = ULONG_MAX →
      Keypad.idleRun s flags ts = (s, 0) := by
  intro ts
  induction ts with
  | nil => intro s _; rfl
  | cons t ts ih =>
    intro s h
    have hstep : Keypad.updateIdle s flags flags t = (s, []) := by
      simp [Keypad.updateIdle, h]
    simp [Keypad.idleRun, hstep, ih s h]

theorem idleRun_fires (flags : Nat) :
    ∀ (ts : List Nat) (s : KeypadState), s.m_idleListner = true →
      s.m_idleStart ≠ ULONG_MAX → s.m_idleStart < 2 ^ 32 →
      (∀ t ∈ ts, s.m_idleStart ≤ t ∧ t < 2 ^ 32) →
      (∃ t ∈ ts, MaxIdleTime < t - s.m_idleStart) →
      Keypad.idleRun s flags ts = ({ s with m_idleStart := ULONG_MAX }, 1) := by
  intro ts
  induction ts with
  | nil => intro s _ _ _ _ hex; simp at hex
  | cons t ts ih =>
    intro s hlist hne hlt hbound hex
    obtain ⟨hts, htlt⟩ := hbound t (by simp)
    by_cases hfire : MaxIdleTime < t - s.m_idleStart
    · have hstep : Keypad.updateIdle s flags flags t =
          ({ s with m_idleStart := ULONG_MAX }, [.idle]) := by
        simp [Keypad.updateIdle, hne, sub32_eq_sub t s.m_idleStart hts htlt, hfire, hlist]
      have hrest : Keypad.idleRun { s with m_idleStart := ULONG_MAX } flags ts =
          ({ s with m_idleStart := ULONG_MAX }, 0) :=
        idleRun_consumed flags ts _ rfl
      simp [Keypad.idleRun, hstep, hrest]
    · have hstep : Keypad.updateIdle s flags flags t = (s, []) := by
        simp [Keypad.updateIdle, hne, sub32_eq_sub t s.m_idleStart hts htlt, hfire]
      have hex2 : ∃ u ∈ ts, MaxIdleTime < u - s.m_idleStart := by
        rcases hex with ⟨u, hu, hub⟩
        rcases List.mem_cons.mp hu with rfl | hu2
        · exact absurd hub hfire
        · exact ⟨u, hu2, hub⟩
      simp [Keypad.idleRun, hstep,
        ih s hlist hne hlt (fun u hu => hbound u (List.mem_cons_of_mem _ hu)) hex2]

/-- Claim C2: a tick whose sample differs from the previous one resets
the idle-start timestamp to the current time and notifies nothing;
over any run of ticks with a constant sample, times in range of the
32-bit clock, some of them more than MaxIdleTime past a live idle-start,
onIdle is notified exactly once and the idle-start is left at the
ULONG_MAX sentinel; and from the sentinel a constant-sample run
notifies nothing at all. -/
theorem keypad_idle_once :
    (∀ (s : KeypadState) (oldS newS t : Nat), oldS ≠ newS →
      Keypad.updateIdle s oldS newS t = ({ s with m_idleStart := t }, []))
    ∧ (∀ (s : KeypadState) (flags : Nat) (ts : List Nat), s.m_idleListner = true →
      s.m_idleStart ≠ ULONG_MAX → s.m_idleStart < 2 ^ 32 →
      (∀ t ∈ ts, s.m_idleStart ≤ t ∧ t < 2 ^ 32) →
      (∃ t ∈ ts, MaxIdleTime < t - s.m_idleStart) →
      Keypad.idleRun s flags ts = ({ s with m_idleStart := ULONG_MAX }, 1))
    ∧ (∀ (s : KeypadState) (flags : Nat) (ts : List Nat), s.m_idleStart = ULONG_MAX →
      Keypad.idleRun s flags ts = (s, 0)) := by
  refine ⟨?_, ?_, ?_⟩
  · intro s oldS newS t h
    simp [Keypad.updateIdle, h]
  · intro s flags ts h1 h2 h3 h4 h5
    exact idleRun_fires flags ts s h1 h2 h3 h4 h5
  · intro s flags ts h
    exact idleRun_consumed flags ts s h

/-- Witness for C2: from the boot state a constant released sample with
a tick at time 16000 fires idle once and parks the timestamp at the
sentinel, and a changed sample at time 77 resets the timestamp. -/
theorem keypad_idle_once_witness :
    (Keypad.idleRun keypadBoot 0 [16000]).2 = 1 ∧
    (Keypad.idleRun keypadBoot 0 [16000]).1.m_idleStart = ULONG_MAX ∧
    Keypad.updateIdle keypadBoot 3 5 77 = ({ keypadBoot with m_idleStart := 77 }, []) := by
  have h2 := keypad_idle_once.2.1 keypadBoot 0 [16000] rfl (by decide) (by decide)
    (by decide) (by decide)
  have h1 := keypad_idle_once.1 keypadBoot 3 5 77 (by decide)
  exact ⟨by rw [h2], by rw [h2], h1⟩

theorem pressFold_mem (flags curr : Nat) :
    ∀ (l : List Nat) (acc : KeypadState × List Notification) (n : Notification),
      n ∈ (Keypad.pressFold flags curr l acc).2 → n ∈ acc.2 ∨ ∃ b, n = .keyPress b := by
  intro l
  induction l with
  | nil => intro acc n h; exact Or.inl h
  | cons idx rest ih =>
    intro acc n h
    by_cases hc : flags &&& (1 <<< idx) ≠ 0
    · rw [Keypad.pressFold, if_pos hc] at h
      rcases ih _ n h with h2 | h2
      · rcases List.mem_append.mp h2 with h3 | h3
        · exact Or.inl h3
        · exact Or.inr ⟨_, List.mem_singleton.mp h3⟩
      · exact Or.inr h2
    · rw [Keypad.pressFold, if_neg hc] at h
      exact ih _ n h

theorem longFold_zero (curr : Nat) (s : KeypadState) :
    ∀ (l : List Nat) (acc : List Notification), Keypad.longFold 0 curr s l acc = acc := by
  intro l
  induction l with
  | nil => intro acc; rfl
  | cons idx rest ih =>
    intro acc
    rw [Keypad.longFold, if_neg (by simp)]
    exact ih acc

theorem releaseFold_zero :
    ∀ (l : List Nat) (acc : List Notification), Keypad.releaseFold 0 l acc = acc := by
  intro l
  induction l with
  | nil => intro acc; rfl
  | cons idx rest ih =>
    intro acc
    rw [Keypad.releaseFold, if_neg (by simp)]
    exact ih acc

theorem loopImpl_from_released (s0 : KeypadState) (sample curr : Nat)
    (h : (Keypad.updateIdle s0 0 sample curr).2 = []) :
    Notification.idle ∉ (Keypad.loopImpl s0 0 sample curr).2 ∧
    ∀ b, Notification.longKeyPress b ∉ (Keypad.loopImpl s0 0 sample curr).2 := by
  have hjp : ButtonSet.notIn sample 0 = sample := by
    simp [ButtonSet.notIn]
  have hlt : ButtonSet.difference (ButtonSet.notIn sample 0) sample = 0 := by
    simp [ButtonSet.notIn, ButtonSet.difference]
  have hjr : ButtonSet.notIn 0 sample = 0 := by
    simp [ButtonSet.notIn]
  simp only [Keypad.loopImpl]
  cases hsl : (Keypad.updateIdle s0 0 sample curr).1.m_listner with
  | none =>
    simp [h]
  | some a =>
    simp only [hlt, hjr, h, longFold_zero, releaseFold_zero, List.nil_append,
      List.append_nil]
    constructor
    · intro hmem
      rcases pressFold_mem _ _ _ _ _ hmem with h2 | ⟨b, hb⟩
      · simp at h2
      · exact Notification.noConfusion hb
    · intro b hmem
      rcases pressFold_mem _ _ _ _ _ hmem with h2 | ⟨b2, hb⟩
      · simp at h2
      · exact Notification.noConfusion hb

/-- Claim C8: the keypad wake hook sets the idle-start timestamp and
all five press timestamps to the current time and clears the previous
sample, so the first tick after waking (at any time within the idle
threshold of the wake) notifies neither idle nor a long key press. -/
theorem keypad_wakeup_resets (s : KeypadState) (t : Nat) :
    ((Keypad.onWakeUp s t).m_idleStart = t ∧
      (∀ i, i < 5 → (Keypad.onWakeUp s t).m_buttonPressTime i = t) ∧
      (Keypad.onWakeUp s t).m_prevState = 0) ∧
    ∀ sample t2, t ≤ t2 → t2 < 2 ^ 32 → t2 - t ≤ MaxIdleTime →
      Notification.idle ∉ (Keypad.onLoop (Keypad.onWakeUp s t) sample t2).2 ∧
      ∀ b, Notification.longKeyPress b ∉ (Keypad.onLoop (Keypad.onWakeUp s t) sample t2).2 := by
  refine ⟨⟨rfl, ?_, rfl⟩, ?_⟩
  · intro i hi
    simp [Keypad.onWakeUp, hi]
  · intro sample t2 h1 h2 h3
    have hout : (Keypad.updateIdle (Keypad.onWakeUp s t) 0 sample t2).2 = [] := by
      by_cases hsample : (0 : Nat) ≠ sample
      · simp [Keypad.updateIdle, hsample]
      · by_cases ht : t = ULONG_MAX
        · simp [Keypad.updateIdle, hsample, Keypad.onWakeUp, ht]
        · have hsub : sub32 t2 t = t2 - t := sub32_eq_sub t2 t h1 h2
          simp [Keypad.updateIdle, hsample, Keypad.onWakeUp, ht, hsub, Nat.not_lt.mpr h3]
    exact loopImpl_from_released (Keypad.onWakeUp s t) sample t2 hout

/-- Witness for C8: wake at time 10, first tick at time 20 with the Up
and Center buttons read down. -/
theorem keypad_wakeup_resets_witness :
    ((Keypad.onWakeUp keypadBoot 10).m_idleStart = 10 ∧
      (∀ i, i < 5 → (Keypad.onWakeUp keypadBoot 10).m_buttonPressTime i = 10) ∧
      (Keypad.onWakeUp keypadBoot 10).m_prevState = 0) ∧
    Notification.idle ∉ (Keypad.onLoop (Keypad.onWakeUp keypadBoot 10) 6 20).2 ∧
    ∀ b, Notification.longKeyPress b ∉ (Keypad.onLoop (Keypad.onWakeUp keypadBoot 10) 6 20).2 := by
  have h := keypad_wakeup_resets keypadBoot 10
  exact ⟨h.1, h.2 6 20 (by decide) (by decide) (by decide)⟩

theorem get_pos_ne {Cap f i j : Nat} (hij : i < j) (hj : j - i < Cap) :
    (i + f) % Cap ≠ (j + f) % Cap := by
  intro h
  have hmod : (i + f) ≡ (j + f) [MOD Cap] := h
  have hdvd : Cap ∣ (j + f) - (i + f) := (Nat.modEq_iff_dvd' (by omega)).mp hmod
  have hle : Cap ≤ (j + f) - (i + f) := Nat.le_of_dvd (by omega) hdvd
  omega

theorem repInv_size {T : Type} [Inhabited T] {Cap : Nat} (q : CircularQueue T Cap)
    (l : List T) (h : repInv q l) (hCap : Cap ≤ 256) : q.size = l.length := by
  obtain ⟨hf, hl, hb, _⟩ := h
  unfold CircularQueue.size
  rw [hb]
  by_cases hc : q.m_front + l.length < Cap
  · rw [Nat.mod_eq_of_lt hc]
    have he : q.m_front + l.length + Cap - q.m_front = l.length + Cap := by omega
    rw [he, Nat.add_mod_right, Nat.mod_eq_of_lt hl, Nat.mod_eq_of_lt (by omega)]
  · have he : (q.m_front + l.length) % Cap = q.m_front + l.length - Cap := by
      rw [Nat.mod_eq_sub_mod (by omega), Nat.mod_eq_of_lt (by omega)]
    rw [he]
    have he2 : q.m_front + l.length - Cap + Cap - q.m_front = l.length := by omega
    rw [he2, Nat.mod_eq_of_lt hl, Nat.mod_eq_of_lt (by omega)]

theorem push_spec {T : Type} [Inhabited T] {Cap : Nat} (q : CircularQueue T Cap)
    (l : List T) (v : T) (h : repInv q l) (hcap : l.length + 1 ≤ Cap) :
    (q.push_back v).m_front = q.m_front ∧
    (q.push_back v).m_back = (q.m_front + (l.length + 1)) % Cap ∧
    ∀ i, i < l.length + 1 → (q.push_back v).get i = (l ++ [v]).getD i default := by
  obtain ⟨hf, hl, hb, hget⟩ := h
  refine ⟨rfl, ?_, ?_⟩
  · show (q.m_back + 1) % Cap = (q.m_front + (l.length + 1)) % Cap
    rw [hb, Nat.mod_add_mod, Nat.add_assoc]
  · intro i hi
    show (if (i + q.m_front) % Cap = q.m_back then v else q.m_data ((i + q.m_front) % Cap)) =
      (l ++ [v]).getD i default
    rcases Nat.lt_or_ge i l.length with hi2 | hi2
    · have hne : (i + q.m_front) % Cap ≠ q.m_back := by
        rw [hb]
        have : (q.m_front + l.length) % Cap = (l.length + q.m_front) % Cap := by
          rw [Nat.add_comm]
        rw [this]
        exact get_pos_ne hi2 (by omega)
      rw [if_neg hne, List.getD_append _ _ _ _ hi2]
      exact hget i hi2
    · have hieq : i = l.length := by omega
      subst hieq
      have heq : (l.length + q.m_front) % Cap = q.m_back := by
        rw [hb, Nat.add_comm q.m_front l.length]
      rw [if_pos heq, List.getD_append_right _ _ _ _ (Nat.le_refl _)]
      simp

theorem pop_spec {T : Type} [Inhabited T] {Cap : Nat} (q : CircularQueue T Cap)
    (l : List T) (hCap0 : 0 < Cap) (_hf : q.m_front < Cap) (hlen : l.length ≤ Cap)
    (hb : q.m_back = (q.m_front + l.length) % Cap)
    (hget : ∀ i, i < l.length → q.get i = l.getD i default)
    (hne : l ≠ []) : repInv q.pop_front l.tail := by
  obtain ⟨a, as, rfl⟩ := List.exists_cons_of_ne_nil hne
  have hlen2 : as.length + 1 ≤ Cap := by simpa using hlen
  refine ⟨Nat.mod_lt _ hCap0, ?_, ?_, ?_⟩
  · show as.length < Cap
    omega
  · show q.m_back = ((q.m_front + 1) % Cap + as.length) % Cap
    rw [Nat.mod_add_mod, hb]
    have he : q.m_front + (a :: as).length = q.m_front + 1 + as.length := by
      simp
      omega
    rw [he]
  · intro i hi
    show q.m_data ((i + (q.m_front + 1) % Cap) % Cap) = (a :: as).tail.getD i default
    have hpos : (i + (q.m_front + 1) % Cap) % Cap = ((i + 1) + q.m_front) % Cap := by
      rw [Nat.add_mod_mod]
      congr 1
      omega
    rw [hpos]
    have hi2 : i + 1 < (a :: as).length := by
      simp at hi ⊢
      omega
    have hg := hget (i + 1) hi2
    unfold CircularQueue.get at hg
    rw [hg]
    rfl

theorem repInv_empty {T : Type} [Inhabited T] {Cap : Nat} (hCap : 0 < Cap) :
    repInv (CircularQueue.empty : CircularQueue T Cap) [] := by
  refine ⟨hCap, hCap, by simp [CircularQueue.empty], ?_⟩
  intro i hi
  simp at hi

theorem repInv_applyOps {T : Type} [Inhabited T] {Cap : Nat} (hCap : 0 < Cap) :
    ∀ (ops : List (QOp T)) (q : CircularQueue T Cap) (l : List T),
      repInv q l → validOps Cap l.length ops = true →
      repInv (applyOps q ops) (applyModel l ops) := by
  intro ops
  induction ops with
  | nil => intro q l h _; exact h
  | cons op rest ih =>
    intro q l h hv
    cases op with
    | push v =>
      simp only [validOps, Bool.and_eq_true, decide_eq_true_eq] at hv
      have hpush := push_spec q l v h (by omega)
      have hinv2 : repInv (q.push_back v) (l ++ [v]) := by
        refine ⟨?_, by simp; omega, ?_, ?_⟩
        · rw [hpush.1]; exact h.1
        · rw [hpush.2.1, hpush.1]; simp
        · intro i hi
          exact hpush.2.2 i (by simp at hi ⊢; omega)
      have := ih (q.push_back v) (l ++ [v]) hinv2 (by simpa using hv.2)
      simpa [applyOps, applyModel] using this
    | pop =>
      simp only [validOps, Bool.and_eq_true, decide_eq_true_eq] at hv
      have hne : l ≠ [] := by
        intro he
        rw [he] at hv
        simp at hv
      have hinv2 : repInv q.pop_front l.tail :=
        pop_spec q l hCap h.1 (Nat.le_of_lt h.2.1) h.2.2.1 h.2.2.2 hne
      have hlen : l.tail.length = l.length - 1 := by simp
      have := ih q.pop_front l.tail hinv2 (by rw [hlen]; exact hv.2)
      simpa [applyOps, applyModel] using this

theorem applyModel_length {T : Type} (Cap : Nat) :
    ∀ (ops : List (QOp T)) (l : List T), validOps Cap l.length ops = true →
      (applyModel l ops).length + countPop ops = l.length + countPush ops := by
  intro ops
  induction ops with
  | nil => intro l _; simp [applyModel, countPop, countPush]
  | cons op rest ih =>
    intro l hv
    cases op with
    | push v =>
      simp only [validOps, Bool.and_eq_true, decide_eq_true_eq] at hv
      have := ih (l ++ [v]) (by simpa using hv.2)
      simp only [applyModel, countPop, countPush] at this ⊢
      simp at this ⊢
      omega
    | pop =>
      simp only [validOps, Bool.and_eq_true, decide_eq_true_eq] at hv
      have hlen : l.tail.length = l.length - 1 := by simp
      have := ih l.tail (by rw [hlen]; exact hv.2)
      simp only [applyModel, countPop, countPush] at this ⊢
      simp at this ⊢
      omega

theorem headD_eq_getD {T : Type} (l : List T) (d : T) (h : l ≠ []) :
    l.headD d = l.getD 0 d := by
  cases l with
  | nil => exact absurd rfl h
  | cons a as => rfl

set_option maxRecDepth 10000 in
/-- Claim C5 counterexample: size() is returned as uint8_t, so on a
capacity-258 buffer a trace of 256 pushes that respects the
Capacity - 1 live-element discipline leaves size() = 0 instead of the
256 pushes minus 0 pops the claim demands. -/
theorem ringBuffer_size_truncates :
    validOps 258 0 (List.replicate 256 (QOp.push (0 : Nat))) = true ∧
    countPush (List.replicate 256 (QOp.push (0 : Nat))) -
      countPop (List.replicate 256 (QOp.push (0 : Nat))) = 256 ∧
    (applyOps (CircularQueue.empty : CircularQueue Nat 258)
      (List.replicate 256 (QOp.push 0))).size = 0 := by
  refine ⟨by decide, by decide, by decide⟩

/-- Claim C5 as amended: for every trace of push_back and pop_front
operations that respects the Capacity - 1 live-element discipline, on a
capacity of at most 256 (covering every instantiation in the program;
size() is returned as uint8_t), the final size
is the number of pushes minus the number of pops, and front and indexed
access return the elements in insertion order. -/
theorem ringBuffer_fifo (Cap : Nat) (hCap1 : 0 < Cap) (hCap2 : Cap ≤ 256)
    (ops : List (QOp Nat)) (hv : validOps Cap 0 ops = true) :
    (applyOps (CircularQueue.empty : CircularQueue Nat Cap) ops).size =
      countPush ops - countPop ops
    ∧ (∀ i, i < (applyModel ([] : List Nat) ops).length →
        (applyOps (CircularQueue.empty : CircularQueue Nat Cap) ops).get i =
          (applyModel [] ops).getD i 0)
    ∧ (applyModel ([] : List Nat) ops ≠ [] →
        (applyOps (CircularQueue.empty : CircularQueue Nat Cap) ops).front =
          (applyModel [] ops).headD 0) := by
  have hinv := repInv_applyOps hCap1 ops CircularQueue.empty [] (repInv_empty hCap1) hv
  have hlen := applyModel_length Cap ops [] hv
  have hsize := repInv_size _ _ hinv hCap2
  refine ⟨?_, ?_, ?_⟩
  · rw [hsize]
    simp at hlen
    omega
  · intro i hi
    exact hinv.2.2.2 i hi
  · intro hne
    have h0 : (applyModel ([] : List Nat) ops).length ≠ 0 := by
      intro h0
      exact hne (List.eq_nil_of_length_eq_zero h0)
    have hg := hinv.2.2.2 0 (by omega)
    unfold CircularQueue.get at hg
    rw [Nat.zero_add, Nat.mod_eq_of_lt hinv.1] at hg
    rw [headD_eq_getD _ _ hne]
    exact hg

/-- Witness for C5, the specification scenario: capacity 4, push 10,
20, 30, then pop once; the front is 20 and the size is 2. -/
theorem ringBuffer_fifo_witness :
    (applyOps (CircularQueue.empty : CircularQueue Nat 4)
      [.push 10, .push 20, .push 30, .pop]).front = 20 ∧
    (applyOps (CircularQueue.empty : CircularQueue Nat 4)
      [.push 10, .push 20, .push 30, .pop]).size = 2 := by
  have h := ringBuffer_fifo 4 (by decide) (by decide)
    [.push 10, .push 20, .push 30, .pop] (by decide)
  exact ⟨(h.2.2 (by decide)).trans (by decide), h.1.trans (by decide)⟩

/-- Claim C3: popNextEvent returns the front of the system lane when it
is non-empty, else the front of the application lane when that is
non-empty, else nullptr; and after scheduling one system and one
application event in either order, three successive pops return the
system event, the application event, and nullptr. -/
theorem popNextEvent_priority (q : ReservedEventQueue) :
    ((q.m_sysEvents.size ≠ 0 →
      q.popNextEvent =
        (q.m_sysEvents.front, { q with m_sysEvents := q.m_sysEvents.pop_front }))
    ∧ (q.m_sysEvents.size = 0 → q.m_shellEvents.size ≠ 0 →
      q.popNextEvent =
        (q.m_shellEvents.front, { q with m_shellEvents := q.m_shellEvents.pop_front }))
    ∧ (q.m_sysEvents.size = 0 → q.m_shellEvents.size = 0 →
      q.popNextEvent = (none, q)))
    ∧ (((ReservedEventQueue.empty.scheduleSysEvent (some .sleepNotifier)).scheduleShellEvent
          (some (.startApp 1))).popNextEvent.1 = some Callable.sleepNotifier
      ∧ ((ReservedEventQueue.empty.scheduleSysEvent (some .sleepNotifier)).scheduleShellEvent
          (some (.startApp 1))).popNextEvent.2.popNextEvent.1 = some (Callable.startApp 1)
      ∧ ((ReservedEventQueue.empty.scheduleSysEvent (some .sleepNotifier)).scheduleShellEvent
          (some (.startApp 1))).popNextEvent.2.popNextEvent.2.popNextEvent.1 = none)
    ∧ (((ReservedEventQueue.empty.scheduleShellEvent (some (.startApp 1))).scheduleSysEvent
          (some .sleepNotifier)).popNextEvent.1 = some Callable.sleepNotifier
      ∧ ((ReservedEventQueue.empty.scheduleShellEvent (some (.startApp 1))).scheduleSysEvent
          (some .sleepNotifier)).popNextEvent.2.popNextEvent.1 = some (Callable.startApp 1)
      ∧ ((ReservedEventQueue.empty.scheduleShellEvent (some (.startApp 1))).scheduleSysEvent
          (some .sleepNotifier)).popNextEvent.2.popNextEvent.2.popNextEvent.1 = none) := by
  refine ⟨⟨?_, ?_, ?_⟩, by decide, by decide⟩
  · intro h
    simp [ReservedEventQueue.popNextEvent, h]
  · intro h1 h2
    simp [ReservedEventQueue.popNextEvent, h1, h2]
  · intro h1 h2
    simp [ReservedEventQueue.popNextEvent, h1, h2]

/-- Witness for C3: on the concrete queue holding one event in each
lane, the system lane is drained first. -/
theorem popNextEvent_priority_witness :
    ((ReservedEventQueue.empty.scheduleSysEvent (some .sleepNotifier)).scheduleShellEvent
      (some (.startApp 1))).popNextEvent.1 = some Callable.sleepNotifier := by
  have h := (popNextEvent_priority
    ((ReservedEventQueue.empty.scheduleSysEvent (some .sleepNotifier)).scheduleShellEvent
      (some (.startApp 1)))).1.1 (by decide)
  rw [h]
  decide

/-- Claim C4: with application A current, scheduleApplication B followed
by two orchestrator ticks first executes only the deactivate event
(current application cleared, keypad listener cleared, A deactivated and
nothing else called) and then the activate event (B current, B
activated, B installed as listener), leaving the lanes empty; with no
current application only the activate event is enqueued and the switch
completes in one tick. -/
theorem scheduleApplication_two_ticks (A B : Nat) (t1 p1 t2 p2 : Nat) :
    ((Shell.onLoop (Shell.scheduleApplication (shellWith (some A)) B) t1 p1).m_currentApplication
        = none
    ∧ (Shell.onLoop (Shell.scheduleApplication (shellWith (some A)) B) t1 p1).m_keypad.m_listner
        = none
    ∧ (Shell.onLoop (Shell.scheduleApplication (shellWith (some A)) B) t1 p1).log
        = [.deactivated A])
    ∧ ((Shell.onLoop (Shell.onLoop (Shell.scheduleApplication (shellWith (some A)) B) t1 p1)
          t2 p2).m_currentApplication = some B
    ∧ (Shell.onLoop (Shell.onLoop (Shell.scheduleApplication (shellWith (some A)) B) t1 p1)
          t2 p2).m_keypad.m_listner = some B
    ∧ (Shell.onLoop (Shell.onLoop (Shell.scheduleApplication (shellWith (some A)) B) t1 p1)
          t2 p2).log = [.deactivated A, .activated B]
    ∧ (Shell.onLoop (Shell.onLoop (Shell.scheduleApplication (shellWith (some A)) B) t1 p1)
          t2 p2).queue.popNextEvent.1 = none)
    ∧ ((Shell.scheduleApplication (shellWith none) B).queue.m_sysEvents.size = 0
    ∧ (Shell.scheduleApplication (shellWith none) B).queue.m_shellEvents.size = 1
    ∧ (Shell.onLoop (Shell.scheduleApplication (shellWith none) B) t1 p1).m_currentApplication
        = some B
    ∧ (Shell.onLoop (Shell.scheduleApplication (shellWith none) B) t1 p1).m_keypad.m_listner
        = some B
    ∧ (Shell.onLoop (Shell.scheduleApplication (shellWith none) B) t1 p1).log = [.activated B]
    ∧ (Shell.onLoop (Shell.scheduleApplication (shellWith none) B) t1 p1).queue.popNextEvent.1
        = none) := by
  refine ⟨⟨?_, ?_, ?_⟩, ⟨?_, ?_, ?_, ?_⟩, ?_, ?_, ?_, ?_, ?_, ?_⟩ <;>
    simp [Shell.onLoop, Shell.scheduleApplication, Shell.execute, shellWith,
      ReservedEventQueue.popNextEvent, ReservedEventQueue.scheduleShellEvent,
      ReservedEventQueue.scheduleSysEvent, ReservedEventQueue.empty,
      CircularQueue.push_back, CircularQueue.pop_front, CircularQueue.size,
      CircularQueue.front, CircularQueue.empty, keypadBoot]

theorem repInv_front {T : Type} [Inhabited T] {Cap : Nat} (q : CircularQueue T Cap)
    (l : List T) (h : repInv q l) (hne : l ≠ []) : q.front = l.headD default := by
  have h0 : l.length ≠ 0 := by
    intro h0
    exact hne (List.eq_nil_of_length_eq_zero h0)
  have hg := h.2.2.2 0 (by omega)
  unfold CircularQueue.get at hg
  rw [Nat.zero_add, Nat.mod_eq_of_lt h.1] at hg
  rw [headD_eq_getD _ _ hne]
  exact hg

theorem tail_append_singleton {T : Type} (l : List T) (v : T) (hne : l ≠ []) :
    (l ++ [v]).tail = l.tail ++ [v] := by
  cases l with
  | nil => exact absurd rfl hne
  | cons a as => rfl

theorem moveSnake_eq (q : SnakeType) (d : Direction) (apple : Point16x16) :
    moveSnake q d apple =
      if (List.range q.size).any (fun idx => movePoint q.back d = q.get idx) then
        ⟨.SelfHit, q, movePoint q.back d, q.front⟩
      else if movePoint q.back d = apple then
        ⟨.AppleHit, q.push_back (movePoint q.back d), movePoint q.back d, q.front⟩
      else
        ⟨.Regular, (q.push_back (movePoint q.back d)).pop_front, movePoint q.back d,
          q.front⟩ := rfl

set_option maxRecDepth 100000 in
/-- Claim C9 counterexample: on the largest snake the ring discipline
admits (255 of the 256 cells live), a move that hits the apple pushes
the head past the front index, so AppleHit is returned but the size
wraps to 0 instead of growing to 256. -/
theorem moveSnake_applehit_overflow :
    fullSnake.size = 255 ∧
    (moveSnake fullSnake .Right ⟨1⟩).res = .AppleHit ∧
    (moveSnake fullSnake .Right ⟨1⟩).snake.size = 0 ∧
    ¬ (moveSnake fullSnake .Right ⟨1⟩).snake.size = fullSnake.size + 1 := by
  refine ⟨by decide, by decide, by decide, by decide⟩

/-- Claim C9 as amended: for a snake queue faithfully holding the
nonempty segment list l, SelfHit leaves the queue untouched; AppleHit
grows the size by exactly one provided the snake held fewer than
Capacity - 1 = 255 segments; Regular keeps the size, appends the moved
head at the back, and drops the old tail from the front. -/
theorem moveSnake_effects (q : SnakeType) (l : List Point16x16) (d : Direction)
    (apple : Point16x16) (hinv : repInv q l) (hne : l ≠ []) :
    ((moveSnake q d apple).res = .SelfHit → (moveSnake q d apple).snake = q)
    ∧ (l.length + 1 < 256 → (moveSnake q d apple).res = .AppleHit →
        (moveSnake q d apple).snake.size = q.size + 1)
    ∧ ((moveSnake q d apple).res = .Regular →
        (moveSnake q d apple).snake.size = q.size
        ∧ repInv (moveSnake q d apple).snake (l.tail ++ [(moveSnake q d apple).fill])
        ∧ (moveSnake q d apple).clear = l.headD default) := by
  have hq : q.size = l.length := repInv_size q l hinv (by omega)
  rw [moveSnake_eq]
  by_cases hhit : ((List.range q.size).any fun idx => movePoint q.back d = q.get idx) = true
  · rw [if_pos hhit]
    simp
  · rw [if_neg hhit]
    by_cases happle : movePoint q.back d = apple
    · rw [if_pos happle]
      refine ⟨by simp, ?_, by simp⟩
      intro hlen _
      show (q.push_back (movePoint q.back d)).size = q.size + 1
      have hpush := push_spec q l (movePoint q.back d) hinv (by omega)
      have hinv2 : repInv (q.push_back (movePoint q.back d)) (l ++ [movePoint q.back d]) := by
        refine ⟨?_, by simp; omega, ?_, ?_⟩
        · rw [hpush.1]; exact hinv.1
        · rw [hpush.2.1, hpush.1]; simp
        · intro i hi
          exact hpush.2.2 i (by simp at hi ⊢; omega)
      have hsz := repInv_size _ _ hinv2 (Nat.le_refl 256)
      rw [hsz]
      simp [hq]
    · rw [if_neg happle]
      refine ⟨by simp, by simp, ?_⟩
      intro _
      have hcap : l.length + 1 ≤ 256 := hinv.2.1
      have hpush := push_spec q l (movePoint q.back d) hinv hcap
      have hne2 : l ++ [movePoint q.back d] ≠ [] := by simp
      have hinv3 : repInv (q.push_back (movePoint q.back d)).pop_front
          (l ++ [movePoint q.back d]).tail := by
        refine pop_spec _ (l ++ [movePoint q.back d]) (by omega) ?_ (by simp; omega) ?_ ?_ hne2
        · rw [hpush.1]; exact hinv.1
        · rw [hpush.2.1, hpush.1]; simp
        · intro i hi
          exact hpush.2.2 i (by simp at hi ⊢; omega)
      rw [tail_append_singleton _ _ hne] at hinv3
      have hlen1 : 1 ≤ l.length := by
        cases l with
        | nil => exact absurd rfl hne
        | cons a as => simp
      have hsz := repInv_size _ _ hinv3 (Nat.le_refl 256)
      refine ⟨?_, hinv3, repInv_front q l hinv hne⟩
      show ((q.push_back (movePoint q.back d)).pop_front).size = q.size
      rw [hsz]
      simp [hq]
      omega

/-- Witness for C9 at a two-segment snake moving Right away from the
apple: a Regular move keeping size 2 and clearing the old tail. -/
theorem moveSnake_effects_witness :
    (moveSnake ((CircularQueue.empty.push_back ⟨0⟩).push_back ⟨1⟩) .Right ⟨85⟩).snake.size = 2 ∧
    (moveSnake ((CircularQueue.empty.push_back ⟨0⟩).push_back ⟨1⟩) .Right ⟨85⟩).clear =
      (⟨0⟩ : Point16x16) := by
  have h := moveSnake_effects ((CircularQueue.empty.push_back ⟨0⟩).push_back ⟨1⟩)
    [⟨0⟩, ⟨1⟩] .Right ⟨85⟩ (by unfold repInv; decide) (by decide)
  have h3 := h.2.2 (by decide)
  exact ⟨h3.1.trans (by decide), h3.2.2.trans (by decide)⟩
